import Mathlib

/-!
Shallow embedding of the arena-shooter simulation engine
(src/app/game-engine.ts) together with proofs of its specified
properties.

Numeric conventions: the source uses JavaScript floating-point numbers.
Integer-valued quantities (health, ammo, millisecond timestamps) are
embedded as Int; geometric quantities of the combat module as Rat, where
every operation performed by the source is exact over the rationals; and
the player kinematics as Real, because its input-direction normalisation
divides by a Euclidean length that is irrational for diagonal input.
Distance comparisons of the source (Vector3.distanceTo against a bound,
occluder distance against player distance) are embedded via squared
distances, which is equivalent because the square root is monotone on
nonnegative numbers.
-/

section Geometry

variable {α : Type} [LinearOrderedField α]

/-- Three-component vector, mirroring THREE.Vector3. -/
structure Vec3 (α : Type) where
  x : α
  y : α
  z : α
  deriving DecidableEq, Repr

/-- Componentwise vector addition (THREE.Vector3.add). -/
def Vec3.add (a b : Vec3 α) : Vec3 α :=
  ⟨a.x + b.x, a.y + b.y, a.z + b.z⟩

/-- Scalar multiplication (THREE.Vector3.multiplyScalar). -/
def Vec3.scale (v : Vec3 α) (c : α) : Vec3 α :=
  ⟨v.x * c, v.y * c, v.z * c⟩

/-- Squared Euclidean distance.  The source computes
Vector3.distanceTo, the square root of this quantity; the embedding
compares squared distances throughout, which is equivalent. -/
def Vec3.distSq (a b : Vec3 α) : α :=
  (a.x - b.x) ^ 2 + (a.y - b.y) ^ 2 + (a.z - b.z) ^ 2

/-- Axis-aligned box given by center and size, as produced by a
BoxGeometry of the given size positioned at the given center.  THREE
Box3.setFromObject on these unrotated meshes yields exactly the box
center ± size / 2. -/
structure Box3 (α : Type) where
  center : Vec3 α
  size : Vec3 α
  deriving DecidableEq, Repr

/-- Lower corner of a box. -/
def Box3.lo (b : Box3 α) : Vec3 α :=
  ⟨b.center.x - b.size.x / 2, b.center.y - b.size.y / 2, b.center.z - b.size.z / 2⟩

/-- Upper corner of a box. -/
def Box3.hi (b : Box3 α) : Vec3 α :=
  ⟨b.center.x + b.size.x / 2, b.center.y + b.size.y / 2, b.center.z + b.size.z / 2⟩

/-- THREE.Box3.intersectsBox: two boxes intersect when they are not
separated along any axis; touching boxes count as intersecting. -/
def intersectsBox (a b : Box3 α) : Prop :=
  a.lo.x ≤ b.hi.x ∧ b.lo.x ≤ a.hi.x ∧
  a.lo.y ≤ b.hi.y ∧ b.lo.y ≤ a.hi.y ∧
  a.lo.z ≤ b.hi.z ∧ b.lo.z ≤ a.hi.z

instance (a b : Box3 ℚ) : Decidable (intersectsBox a b) := by
  unfold intersectsBox Box3.lo Box3.hi
  infer_instance

/-- Player bounding box: Box3.setFromCenterAndSize(position, (2,10,2)),
from updatePlayer. -/
def playerBoxAt (p : Vec3 α) : Box3 α :=
  ⟨p, ⟨2, 10, 2⟩⟩

/-- The static obstacle set, in construction order: the four boundary
walls from createArena (arenaSize 100, wallHeight 20), then the eight
8x10x8 cover boxes from createCover at the listed (x, z) positions. -/
def arenaWalls : List (Box3 α) :=
  [⟨⟨0, 10, -100⟩, ⟨200, 20, 2⟩⟩,
   ⟨⟨0, 10, 100⟩, ⟨200, 20, 2⟩⟩,
   ⟨⟨100, 10, 0⟩, ⟨2, 20, 200⟩⟩,
   ⟨⟨-100, 10, 0⟩, ⟨2, 20, 200⟩⟩,
   ⟨⟨20, 5, 30⟩, ⟨8, 10, 8⟩⟩,
   ⟨⟨-20, 5, 30⟩, ⟨8, 10, 8⟩⟩,
   ⟨⟨20, 5, -30⟩, ⟨8, 10, 8⟩⟩,
   ⟨⟨-20, 5, -30⟩, ⟨8, 10, 8⟩⟩,
   ⟨⟨40, 5, 0⟩, ⟨8, 10, 8⟩⟩,
   ⟨⟨-40, 5, 0⟩, ⟨8, 10, 8⟩⟩,
   ⟨⟨0, 5, 40⟩, ⟨8, 10, 8⟩⟩,
   ⟨⟨0, 5, -40⟩, ⟨8, 10, 8⟩⟩]

/-- The collision test of updatePlayer: the player box at position p
overlaps some obstacle box.  The source loops over the walls and rolls
back at the first overlap; since the rollback is total, only the
existence of an overlap matters. -/
def Collides (walls : List (Box3 α)) (p : Vec3 α) : Prop :=
  ∃ w ∈ walls, intersectsBox (playerBoxAt p) w

end Geometry

section Kinematics

/-- Held movement keys, the input snapshot consumed by updatePlayer. -/
structure MoveInput where
  forward : Bool
  backward : Bool
  left : Bool
  right : Bool
  deriving DecidableEq, Repr

/-- Player kinematic state: camera position, velocity, jump flag. -/
structure PlayerState where
  pos : Vec3 ℝ
  vel : Vec3 ℝ
  canJump : Bool

/-- THREE.Vector3.normalize: divideScalar(length || 1), so the zero
vector is left unchanged. -/
noncomputable def normalize3 (v : Vec3 ℝ) : Vec3 ℝ :=
  let l := Real.sqrt (v.x ^ 2 + v.y ^ 2 + v.z ^ 2)
  let d := if l = 0 then 1 else l
  ⟨v.x / d, v.y / d, v.z / d⟩

/-- Velocity update of updatePlayer: exponential damping on the
horizontal axes, gravity on the vertical axis, then input acceleration
along the normalized held-key direction.  The y component of the
direction vector is never written by the source and stays 0. -/
noncomputable def integrateVelocity (v : Vec3 ℝ) (inp : MoveInput) (dt : ℝ) : Vec3 ℝ :=
  let vx := v.x - v.x * 10 * dt
  let vz := v.z - v.z * 10 * dt
  let vy := v.y - 9.8 * 10 * dt
  let dir : Vec3 ℝ :=
    normalize3 ⟨(if inp.right then (1 : ℝ) else 0) - (if inp.left then (1 : ℝ) else 0), 0,
                (if inp.forward then (1 : ℝ) else 0) - (if inp.backward then (1 : ℝ) else 0)⟩
  let vz := if inp.forward || inp.backward then vz - dir.z * 100 * dt else vz
  let vx := if inp.left || inp.right then vx - dir.x * 100 * dt else vx
  ⟨vx, vy, vz⟩

/-- Position update of updatePlayer: camera.translateX(v.x * dt) and
camera.translateZ(v.z * dt) move along the camera local axes, passed
here as axisX and axisZ (derived from the camera quaternion); the
vertical component is added directly. -/
noncomputable def integratePosition (p : Vec3 ℝ) (axisX axisZ : Vec3 ℝ) (v : Vec3 ℝ)
    (dt : ℝ) : Vec3 ℝ :=
  let p1 := p.add (axisX.scale (v.x * dt))
  let p2 := p1.add (axisZ.scale (v.z * dt))
  ⟨p2.x, p2.y + v.y * dt, p2.z⟩

open Classical in
/-- One tick of updatePlayer: integrate velocity and position, roll
back fully to the pre-integration position (zeroing both horizontal
velocity components) on any obstacle overlap, then apply the ground
clamp at height 10 and the arena bound clamp to ±95. -/
noncomputable def updatePlayer (walls : List (Box3 ℝ)) (s : PlayerState) (inp : MoveInput)
    (axisX axisZ : Vec3 ℝ) (dt : ℝ) : PlayerState :=
  let v1 := integrateVelocity s.vel inp dt
  let p1 := integratePosition s.pos axisX axisZ v1 dt
  let p2 := if Collides walls p1 then s.pos else p1
  let v2 := if Collides walls p1 then (⟨0, v1.y, 0⟩ : Vec3 ℝ) else v1
  let p3 := if p2.y < 10 then (⟨p2.x, 10, p2.z⟩ : Vec3 ℝ) else p2
  let v3 := if p2.y < 10 then (⟨v2.x, 0, v2.z⟩ : Vec3 ℝ) else v2
  let jump := if p2.y < 10 then true else s.canJump
  ⟨⟨max (-95) (min 95 p3.x), p3.y, max (-95) (min 95 p3.z)⟩, v3, jump⟩

end Kinematics

section Combat

/-- Combat-relevant state of one enemy agent.  The velocity, target and
moveTimer fields of the source drive only the agent movement, which the
step relation below overapproximates by allowing arbitrary position
updates, so they are not tracked. -/
structure Enemy where
  pos : Vec3 ℚ
  health : ℤ
  lastShot : ℤ
  deriving DecidableEq, Repr

/-- Combat-relevant engine state: field for field the mutable state of
GameEngine read or written by shoot, reload, killEnemy, spawnEnemies and
the shooting branch of updateEnemies.  pendingReload is the toReload
value captured by the reload setTimeout closure (0 when no reload is in
flight); deathFired records that the onDeath callback has fired;
killCount counts onKill callbacks. -/
structure GameState where
  playerPos : Vec3 ℚ
  playerHealth : ℤ
  playerAmmo : ℤ
  playerReserveAmmo : ℤ
  isReloading : Bool
  pendingReload : ℤ
  deathFired : Bool
  killCount : ℕ
  enemies : List Enemy
  walls : List (Box3 ℚ)
  deriving DecidableEq, Repr

/-- spawnEnemies creates each new enemy with health 100 and lastShot 0
at a randomly sampled position, supplied here as an oracle. -/
def spawnEnemy (p : Vec3 ℚ) : Enemy :=
  ⟨p, 100, 0⟩

/-- killEnemy: remove the dead agent from the live list, signal the
kill, and spawn exactly one replacement when the remaining count is
below 5.  The agent is identified by its index in the list. -/
def killEnemy (s : GameState) (i : ℕ) (spawnPos : Vec3 ℚ) : GameState :=
  let es := s.enemies.eraseIdx i
  let es' := if es.length < 5 then es ++ [spawnEnemy spawnPos] else es
  { s with enemies := es', killCount := s.killCount + 1 }

/-- shoot: a no-op when the magazine is empty or a reload is in
progress; otherwise decrement the magazine and resolve the view-ray
cast.  The source intersects the ray only with the live enemy meshes
(never the walls); the nearest intersected enemy, if any, is supplied
here as the oracle index target.  A hit applies 34 damage and, when the
resulting health is ≤ 0, removes the agent via killEnemy. -/
def shoot (s : GameState) (target : Option ℕ) (spawnPos : Vec3 ℚ) : GameState :=
  if s.playerAmmo ≤ 0 ∨ s.isReloading = true then s
  else
    let s1 := { s with playerAmmo := s.playerAmmo - 1 }
    match target with
    | none => s1
    | some i =>
      match s1.enemies[i]? with
      | none => s1
      | some e =>
        let e' : Enemy := { e with health := e.health - 34 }
        if e'.health ≤ 0 then killEnemy { s1 with enemies := s1.enemies.set i e' } i spawnPos
        else { s1 with enemies := s1.enemies.set i e' }

/-- reload: a no-op when already reloading or when the magazine is
full; otherwise set the reloading flag and capture
toReload = min(30 - magazine, reserve) for the deferred completion. -/
def reload (s : GameState) : GameState :=
  if s.isReloading = true ∨ s.playerAmmo = 30 then s
  else
    { s with isReloading := true,
             pendingReload := min (30 - s.playerAmmo) s.playerReserveAmmo }

/-- reloadDone: the body of the reload setTimeout callback, which runs
exactly once per scheduled reload: move the captured toReload rounds
from reserve to magazine and clear the reloading flag. -/
def reloadDone (s : GameState) : GameState :=
  { s with playerAmmo := s.playerAmmo + s.pendingReload,
           playerReserveAmmo := s.playerReserveAmmo - s.pendingReload,
           isReloading := false,
           pendingReload := 0 }

/-- Occlusion outcome of the enemy line-of-sight raycast against the
walls: the shot is unblocked when no wall is hit or when the nearest
wall hit lies beyond the player.  occSq is the squared distance of the
nearest wall intersection (none when the raycast returns nothing) and
dSq the squared distance to the player; the source compares the plain
distances, which is equivalent on nonnegative numbers. -/
def losClear (occSq : Option ℚ) (dSq : ℚ) : Prop :=
  match occSq with
  | none => True
  | some o => dSq < o

instance (occSq : Option ℚ) (dSq : ℚ) : Decidable (losClear occSq dSq) := by
  unfold losClear
  cases occSq <;> infer_instance

/-- The shooting branch of updateEnemies for the enemy at index i: when
the player is within distance 50 and strictly more than 2000 ms have
passed since lastShot, an attempt is made: lastShot is set to the
current time unconditionally, and when the line of sight is clear and
the accuracy roll exceeds 0.3 the player takes 10 damage, with the
death event firing when the resulting health is ≤ 0.  The distance
comparison distanceTo < 50 is embedded as squared distance < 2500. -/
def enemyShotStep (s : GameState) (i : ℕ) (now : ℤ) (occSq : Option ℚ) (roll : ℚ) :
    GameState :=
  match s.enemies[i]? with
  | none => s
  | some e =>
    if Vec3.distSq e.pos s.playerPos < 2500 ∧ 2000 < now - e.lastShot then
      let s1 := { s with enemies := s.enemies.set i { e with lastShot := now } }
      if losClear occSq (Vec3.distSq e.pos s.playerPos) then
        if 0.3 < roll then
          let h := s1.playerHealth - 10
          { s1 with playerHealth := h, deathFired := s1.deathFired || decide (h ≤ 0) }
        else s1
      else s1
    else s

/-- Overapproximation of the player movement of a tick: the player
position moves to an arbitrary point.  No claim of the specification
constrains the combat module through the exact player kinematics (which
are embedded separately as updatePlayer). -/
def setPlayerPos (s : GameState) (p : Vec3 ℚ) : GameState :=
  { s with playerPos := p }

/-- Overapproximation of the movement branch of updateEnemies: the
enemy at index i moves to an arbitrary point. -/
def moveEnemy (s : GameState) (i : ℕ) (p : Vec3 ℚ) : GameState :=
  match s.enemies[i]? with
  | none => s
  | some e => { s with enemies := s.enemies.set i { e with pos := p } }

/-- One engine event: a player shot (with the raycast result and the
respawn position as oracles), a reload start, a reload completion (only
available while a reload is in flight, mirroring the pending
setTimeout), one enemy shot check (with timestamp, occlusion and
accuracy oracles), or an overapproximated movement update. -/
inductive Step : GameState → GameState → Prop where
  | fire (s : GameState) (target : Option ℕ) (spawnPos : Vec3 ℚ) :
      Step s (shoot s target spawnPos)
  | reloadStart (s : GameState) : Step s (reload s)
  | reloadFinish (s : GameState) (h : s.isReloading = true) : Step s (reloadDone s)
  | enemyShot (s : GameState) (i : ℕ) (now : ℤ) (occSq : Option ℚ) (roll : ℚ) :
      Step s (enemyShotStep s i now occSq roll)
  | playerMove (s : GameState) (p : Vec3 ℚ) : Step s (setPlayerPos s p)
  | enemyMove (s : GameState) (i : ℕ) (p : Vec3 ℚ) : Step s (moveEnemy s i p)

/-- Reflexive-transitive closure of Step. -/
inductive Reachable : GameState → GameState → Prop where
  | refl (s : GameState) : Reachable s s
  | tail {s t u : GameState} : Reachable s t → Step t u → Reachable s u

/-- Match-start state: health 100, magazine 30, reserve 90, no reload
in flight, five fresh enemies. -/
def InitState (s : GameState) : Prop :=
  s.playerHealth = 100 ∧ s.playerAmmo = 30 ∧ s.playerReserveAmmo = 90 ∧
  s.isReloading = false ∧ s.pendingReload = 0 ∧ s.deathFired = false ∧
  s.killCount = 0 ∧ s.enemies.length = 5 ∧
  ∀ e ∈ s.enemies, e.health = 100 ∧ e.lastShot = 0

/-- State invariant maintained by every engine event from a match-start
state. -/
def StateInv (s : GameState) : Prop :=
  0 ≤ s.playerAmmo ∧ s.playerAmmo ≤ 30 ∧
  0 ≤ s.playerReserveAmmo ∧ s.playerReserveAmmo ≤ 90 ∧
  (s.isReloading = true → s.pendingReload = min (30 - s.playerAmmo) s.playerReserveAmmo) ∧
  (s.isReloading = false → s.pendingReload = 0) ∧
  (s.deathFired = false → 0 < s.playerHealth) ∧
  s.enemies.length = 5

end Combat

section Orientation

/-- Math.PI as used by the source, at its double-precision decimal
value. -/
def mathPI : ℚ := 3.141592653589793

/-- Pitch clamp of onMouseMove: Math.max(-PI/2, Math.min(PI/2, x)). -/
def clampPitch (x : ℚ) : ℚ :=
  max (-(mathPI / 2)) (min (mathPI / 2) x)

/-- Pitch update of onMouseMove: euler.x -= movementY * 0.002, then
clamp to ±PI/2. -/
def mouseMovePitch (pitch dy : ℚ) : ℚ :=
  clampPitch (pitch - dy * 0.002)

/-- Yaw update of onMouseMove: euler.y -= movementX * 0.002, with no
clamp. -/
def mouseMoveYaw (yaw dx : ℚ) : ℚ :=
  yaw - dx * 0.002

/-- Recoil increment of shoot: (Math.random() - 0.5) * 0.02, with the
roll drawn from [0, 1). -/
def recoilDelta (r : ℚ) : ℚ :=
  (r - 0.5) * 0.02

/-- Pitch effect of shoot: when the weapon actually fires (magazine
not empty, no reload in flight) the recoil increment is added to the
camera pitch with no clamping; a gated trigger pull leaves the
orientation unchanged. -/
def shootPitch (ammo : ℤ) (reloading : Bool) (pitch r : ℚ) : ℚ :=
  if ammo ≤ 0 ∨ reloading = true then pitch else pitch + recoilDelta r

end Orientation

section Scenarios

/-- Concrete match-start world used by the witnesses: the player at
the camera start position, five fresh enemies at fixed positions
outside the spawn exclusion zone, and the static obstacle set. -/
def initWorld : GameState :=
  { playerPos := ⟨0, 10, 0⟩,
    playerHealth := 100,
    playerAmmo := 30,
    playerReserveAmmo := 90,
    isReloading := false,
    pendingReload := 0,
    deathFired := false,
    killCount := 0,
    enemies := [⟨⟨30, 6, 30⟩, 100, 0⟩, ⟨⟨-30, 6, 30⟩, 100, 0⟩, ⟨⟨30, 6, -30⟩, 100, 0⟩,
                ⟨⟨-30, 6, -30⟩, 100, 0⟩, ⟨⟨50, 6, 0⟩, 100, 0⟩],
    walls := arenaWalls }

/-- Fixed respawn-position oracle used by the concrete scenarios. -/
def spawnP : Vec3 ℚ :=
  ⟨50, 6, 50⟩

/-- State after n consecutive unoccluded, successful shot checks of
enemy 0, 2001 ms apart, from the match-start world. -/
def c7State : ℕ → GameState
  | 0 => initWorld
  | n + 1 => enemyShotStep (c7State n) 0 (2001 * ((n : ℤ) + 1)) none 1

/-- Scenario world of the damage claim: magazine 5, a single fresh
enemy. -/
def c3Init : GameState :=
  { initWorld with playerAmmo := 5, enemies := [⟨⟨30, 6, 30⟩, 100, 0⟩] }

/-- First scenario shot, hitting the single agent. -/
def c3S1 : GameState := shoot c3Init (some 0) spawnP

/-- Second scenario shot, hitting the single agent. -/
def c3S2 : GameState := shoot c3S1 (some 0) spawnP

/-- Third scenario shot, hitting (and killing) the single agent. -/
def c3S3 : GameState := shoot c3S2 (some 0) spawnP

/-- Fourth scenario shot; the original agent is gone, so the ray hits
nothing. -/
def c3S4 : GameState := shoot c3S3 none spawnP

/-- Fifth scenario shot, again hitting nothing. -/
def c3S5 : GameState := shoot c3S4 none spawnP

/-- One shot then a reload from the match-start world, giving a state
with a reload in flight. -/
def c1S2 : GameState := reload (shoot initWorld none spawnP)

/-- No movement keys held. -/
def restInput : MoveInput := ⟨false, false, false, false⟩

/-- Camera local x axis at yaw 0, pitch 0. -/
noncomputable def axisX0 : Vec3 ℝ := ⟨1, 0, 0⟩

/-- Camera local z axis at yaw 0, pitch 0. -/
noncomputable def axisZ0 : Vec3 ℝ := ⟨0, 0, 1⟩

/-- Player resting at ground height inside the footprint of the first
cover box, with zero velocity: a valid post-tick position. -/
noncomputable def c2StateW : PlayerState := ⟨⟨20, 10, 30⟩, ⟨0, 0, 0⟩, false⟩

/-- Player below ground height inside the first cover box, with zero
velocity: gravity alone makes the next integrated box overlap the
cover box. -/
noncomputable def c2StateC : PlayerState := ⟨⟨20, 5, 30⟩, ⟨0, 0, 0⟩, false⟩

end Scenarios

section Helpers

/-- Replacing the element at an index and then erasing that index is
the same as erasing it directly. -/
theorem eraseIdx_set {α : Type} (l : List α) (i : ℕ) (a : α) :
    (l.set i a).eraseIdx i = l.eraseIdx i := by
  induction l generalizing i with
  | nil => simp
  | cons b t ih =>
    cases i with
    | zero => simp
    | succ n => simp [ih]

/-- Prepending one step to a reachability chain. -/
theorem reachable_head {s t u : GameState} (hst : Step s t) (htu : Reachable t u) :
    Reachable s u := by
  induction htu with
  | refl => exact Reachable.tail (Reachable.refl s) hst
  | tail hr hstep ih => exact Reachable.tail ih hstep

/-- A left fold of steps is reachable. -/
theorem reachable_foldl {β : Type} (f : GameState → β → GameState)
    (hf : ∀ s b, Step s (f s b)) (l : List β) (s : GameState) :
    Reachable s (l.foldl f s) := by
  induction l generalizing s with
  | nil => exact Reachable.refl s
  | cons b t ih => exact reachable_head (hf s b) (ih (f s b))

end Helpers

section GateHelpers

/-- shoot is gated: with an empty magazine or a reload in flight it
returns the state unchanged. -/
theorem shoot_gate {s : GameState} (target : Option ℕ) (spawnPos : Vec3 ℚ)
    (h : s.playerAmmo ≤ 0 ∨ s.isReloading = true) : shoot s target spawnPos = s := by
  unfold shoot
  rw [if_pos h]

/-- reload is gated: while already reloading or with a full magazine it
returns the state unchanged. -/
theorem reload_gate {s : GameState} (h : s.isReloading = true ∨ s.playerAmmo = 30) :
    reload s = s := by
  unfold reload
  rw [if_pos h]

end GateHelpers

section ClaimC4

/-- C4: FireWeapon invoked with an empty magazine or during a reload,
and Reload invoked while already reloading or with a full magazine,
are silent no-ops: the entire state is unchanged. -/
theorem invalid_fire_reload_noop (s : GameState) (target : Option ℕ) (spawnPos : Vec3 ℚ) :
    (s.playerAmmo ≤ 0 ∨ s.isReloading = true → shoot s target spawnPos = s) ∧
    (s.isReloading = true ∨ s.playerAmmo = 30 → reload s = s) :=
  ⟨fun h => shoot_gate target spawnPos h, fun h => reload_gate h⟩

/-- C4 witness: with a reload in flight firing is a no-op, and at a
full magazine reloading is a no-op. -/
theorem invalid_fire_reload_noop_witness :
    shoot { initWorld with isReloading := true } none spawnP =
      { initWorld with isReloading := true } ∧
    reload initWorld = initWorld :=
  ⟨(invalid_fire_reload_noop { initWorld with isReloading := true } none spawnP).1
      (Or.inr rfl),
   (invalid_fire_reload_noop initWorld none spawnP).2 (Or.inr (by decide))⟩

end ClaimC4

section ClaimC10

/-- C10: Reload with a non-full magazine and an empty reserve is not a
no-op: it sets the reloading flag, blocks FireWeapon and further
Reload while in flight, and its completion transfers 0 rounds, leaving
magazine and reserve unchanged. -/
theorem reload_empty_reserve (s : GameState) (target : Option ℕ) (spawnPos : Vec3 ℚ)
    (h1 : s.playerAmmo < 30) (h2 : s.playerReserveAmmo = 0) (h3 : s.isReloading = false) :
    (reload s).isReloading = true ∧ reload s ≠ s ∧
    shoot (reload s) target spawnPos = reload s ∧
    reload (reload s) = reload s ∧
    (reloadDone (reload s)).playerAmmo = s.playerAmmo ∧
    (reloadDone (reload s)).playerReserveAmmo = s.playerReserveAmmo ∧
    (reloadDone (reload s)).isReloading = false := by
  have hg : ¬(s.isReloading = true ∨ s.playerAmmo = 30) := by
    rw [h3]
    simp
    omega
  have hr : reload s =
      { s with isReloading := true,
               pendingReload := min (30 - s.playerAmmo) s.playerReserveAmmo } := by
    unfold reload
    rw [if_neg hg]
  have hflag : (reload s).isReloading = true := by rw [hr]
  refine ⟨hflag, ?_, shoot_gate target spawnPos (Or.inr hflag),
    reload_gate (Or.inl hflag), ?_, ?_, ?_⟩
  · intro heq
    rw [heq, h3] at hflag
    exact Bool.false_ne_true hflag
  · rw [hr]
    unfold reloadDone
    dsimp only
    omega
  · rw [hr]
    unfold reloadDone
    dsimp only
    omega
  · rw [hr]
    rfl

/-- C10 witness: reloading at magazine 29 with empty reserve from a
concrete state exhibits the in-flight blocking and the zero-round
completion. -/
theorem reload_empty_reserve_witness :
    (reload { initWorld with playerAmmo := 29, playerReserveAmmo := 0 }).isReloading = true ∧
    reload { initWorld with playerAmmo := 29, playerReserveAmmo := 0 } ≠
      { initWorld with playerAmmo := 29, playerReserveAmmo := 0 } ∧
    shoot (reload { initWorld with playerAmmo := 29, playerReserveAmmo := 0 }) none spawnP =
      reload { initWorld with playerAmmo := 29, playerReserveAmmo := 0 } ∧
    reload (reload { initWorld with playerAmmo := 29, playerReserveAmmo := 0 }) =
      reload { initWorld with playerAmmo := 29, playerReserveAmmo := 0 } ∧
    (reloadDone (reload { initWorld with playerAmmo := 29, playerReserveAmmo := 0 })).playerAmmo =
      { initWorld with playerAmmo := 29, playerReserveAmmo := 0 }.playerAmmo ∧
    (reloadDone (reload { initWorld with playerAmmo := 29, playerReserveAmmo := 0 })).playerReserveAmmo =
      { initWorld with playerAmmo := 29, playerReserveAmmo := 0 }.playerReserveAmmo ∧
    (reloadDone (reload { initWorld with playerAmmo := 29, playerReserveAmmo := 0 })).isReloading = false :=
  reload_empty_reserve { initWorld with playerAmmo := 29, playerReserveAmmo := 0 } none spawnP
    (by decide) (by decide) (by decide)

end ClaimC10

section ClaimC5

/-- C5 (amended): the enemy at index i attempts a shot exactly when
its distance to the player is below 50 (squared distance below 2500)
and strictly more than 2000 ms have elapsed since its lastShot
timestamp; on every attempt lastShot is set to the current time
regardless of the occlusion and accuracy oracles; when no attempt is
due the state is unchanged, so an agent at distance 60 (squared
distance 3600) never attempts a shot. -/
theorem enemy_attempt_amended (s : GameState) (i : ℕ) (now : ℤ) (occSq : Option ℚ)
    (roll : ℚ) (e : Enemy) (he : s.enemies[i]? = some e) :
    (¬(Vec3.distSq e.pos s.playerPos < 2500 ∧ 2000 < now - e.lastShot) →
      enemyShotStep s i now occSq roll = s) ∧
    (Vec3.distSq e.pos s.playerPos < 2500 ∧ 2000 < now - e.lastShot →
      (enemyShotStep s i now occSq roll).enemies[i]? = some { e with lastShot := now }) ∧
    (Vec3.distSq e.pos s.playerPos = 3600 → enemyShotStep s i now occSq roll = s) := by
  obtain ⟨hi, -⟩ := List.getElem?_eq_some.mp he
  have hno : ¬(Vec3.distSq e.pos s.playerPos < 2500 ∧ 2000 < now - e.lastShot) →
      enemyShotStep s i now occSq roll = s := by
    intro hna
    unfold enemyShotStep
    simp only [he]
    rw [if_neg hna]
  refine ⟨hno, ?_, ?_⟩
  · intro hatt
    unfold enemyShotStep
    simp only [he]
    rw [if_pos hatt]
    split_ifs <;> exact List.getElem?_set_self hi
  · intro hd
    refine hno ?_
    rintro ⟨c1, -⟩
    rw [hd] at c1
    norm_num at c1

/-- C5 witness: enemy 0 of the match-start world with 2001 ms elapsed
attempts a shot and its lastShot becomes the current time. -/
theorem enemy_attempt_amended_witness :
    (enemyShotStep initWorld 0 2001 none 1).enemies[0]? =
      some ⟨⟨30, 6, 30⟩, 100, 2001⟩ := by
  have h := enemy_attempt_amended initWorld 0 2001 none 1 ⟨⟨30, 6, 30⟩, 100, 0⟩ rfl
  have hc : Vec3.distSq (⟨30, 6, 30⟩ : Vec3 ℚ) initWorld.playerPos < 2500 ∧
      (2000 : ℤ) < 2001 - 0 := ⟨by norm_num [Vec3.distSq, initWorld], by omega⟩
  exact h.2.1 hc

/-- C5 counterexample: enemy 0 of the match-start world is within
distance 50 of the player and exactly 2000 ms (hence at least 2000 ms)
have elapsed since its last shot, yet no attempt is made: the state is
unchanged, so lastShot keeps 0 instead of the current time. -/
theorem enemy_attempt_cex :
    initWorld.enemies[0]? = some ⟨⟨30, 6, 30⟩, 100, 0⟩ ∧
    Vec3.distSq (⟨30, 6, 30⟩ : Vec3 ℚ) initWorld.playerPos < 2500 ∧
    (2000 : ℤ) - 0 ≥ 2000 ∧
    enemyShotStep initWorld 0 2000 none 1 = initWorld := by
  refine ⟨rfl, by norm_num [Vec3.distSq, initWorld], by omega, ?_⟩
  unfold enemyShotStep
  have he : initWorld.enemies[0]? = some ⟨⟨30, 6, 30⟩, 100, 0⟩ := rfl
  simp only [he]
  rw [if_neg]
  rintro ⟨-, c⟩
  omega

end ClaimC5

section ClaimC8

/-- C8 (amended): every look input leaves the pitch clamped within
±PI/2 (out-of-range inputs are clamped, not rejected), while a fired
shot adds an unclamped recoil of magnitude at most 0.01 rad to the
pitch, so a shot taken at a boundary pitch can leave the ±PI/2 range
until the next look input re-clamps it. -/
theorem pitch_clamp_amended (pitch dy : ℚ) (ammo : ℤ) (reloading : Bool) (r : ℚ)
    (h0 : 0 ≤ r) (h1 : r ≤ 1) :
    -(mathPI / 2) ≤ mouseMovePitch pitch dy ∧ mouseMovePitch pitch dy ≤ mathPI / 2 ∧
    |shootPitch ammo reloading pitch r - pitch| ≤ 0.01 := by
  unfold mouseMovePitch clampPitch
  refine ⟨le_max_left _ _, max_le (by norm_num [mathPI]) (min_le_left _ _), ?_⟩
  unfold shootPitch recoilDelta
  split_ifs
  · rw [sub_self, abs_zero]
    norm_num
  · rw [add_sub_cancel_left, abs_le]
    constructor <;> linarith

/-- C8 witness: a concrete look input stays within the pitch range and
a concrete fired shot moves the pitch by at most 0.01 rad. -/
theorem pitch_clamp_amended_witness :
    -(mathPI / 2) ≤ mouseMovePitch 0 1 ∧ mouseMovePitch 0 1 ≤ mathPI / 2 ∧
    |shootPitch 30 false 0 (1 / 2) - 0| ≤ 0.01 :=
  pitch_clamp_amended 0 1 30 false (1 / 2) (by norm_num) (by norm_num)

/-- C8 counterexample: a large downward look input clamps the pitch to
exactly PI/2, and a following fired shot with a high recoil roll moves
the pitch to PI/2 + 0.0098, strictly outside the ±PI/2 range: a
FireWeapon operation can leave the pitch beyond ±90 degrees. -/
theorem pitch_recoil_cex :
    mouseMovePitch 0 (-10000) = mathPI / 2 ∧
    mathPI / 2 < shootPitch 30 false (mouseMovePitch 0 (-10000)) 0.99 := by
  constructor
  · norm_num [mouseMovePitch, clampPitch, mathPI, min_def, max_def]
  · norm_num [mouseMovePitch, clampPitch, shootPitch, recoilDelta, mathPI, min_def, max_def]

end ClaimC8

section InvariantHelpers

/-- The overapproximated player movement preserves the invariant. -/
theorem setPlayerPos_StateInv {s : GameState} (p : Vec3 ℚ) (hs : StateInv s) :
    StateInv (setPlayerPos s p) := hs

/-- The overapproximated enemy movement preserves the invariant. -/
theorem moveEnemy_StateInv {s : GameState} (i : ℕ) (p : Vec3 ℚ) (hs : StateInv s) :
    StateInv (moveEnemy s i p) := by
  unfold moveEnemy
  rcases hi : s.enemies[i]? with _ | e
  · exact hs
  · obtain ⟨h1, h2, h3, h4, h5, h6, h7, h8⟩ := hs
    refine ⟨h1, h2, h3, h4, h5, h6, h7, ?_⟩
    dsimp only
    rw [List.length_set]
    exact h8

/-- reload preserves the invariant. -/
theorem reload_StateInv {s : GameState} (hs : StateInv s) : StateInv (reload s) := by
  obtain ⟨h1, h2, h3, h4, h5, h6, h7, h8⟩ := hs
  unfold reload
  split_ifs with hg
  · exact ⟨h1, h2, h3, h4, h5, h6, h7, h8⟩
  · refine ⟨h1, h2, h3, h4, fun _ => rfl, ?_, h7, h8⟩
    intro hfalse
    simp at hfalse

/-- reloadDone from a reloading state preserves the invariant. -/
theorem reloadDone_StateInv {s : GameState} (hr : s.isReloading = true) (hs : StateInv s) :
    StateInv (reloadDone s) := by
  obtain ⟨h1, h2, h3, h4, h5, h6, h7, h8⟩ := hs
  have hp := h5 hr
  unfold reloadDone
  refine ⟨?_, ?_, ?_, ?_, ?_, fun _ => rfl, h7, h8⟩
  · dsimp only
    omega
  · dsimp only
    omega
  · dsimp only
    omega
  · dsimp only
    omega
  · intro hfalse
    dsimp only at hfalse
    exact Bool.noConfusion hfalse

/-- shoot preserves the invariant. -/
theorem shoot_StateInv {s : GameState} (target : Option ℕ) (spawnPos : Vec3 ℚ)
    (hs : StateInv s) : StateInv (shoot s target spawnPos) := by
  obtain ⟨h1, h2, h3, h4, h5, h6, h7, h8⟩ := hs
  unfold shoot
  split_ifs with hg
  · exact ⟨h1, h2, h3, h4, h5, h6, h7, h8⟩
  · push_neg at hg
    obtain ⟨hg1, hg2⟩ := hg
    dsimp only
    cases target with
    | none =>
      refine ⟨by dsimp only; omega, by dsimp only; omega, h3, h4, ?_, h6, h7, h8⟩
      intro htrue
      exact absurd htrue hg2
    | some i =>
      rcases hi : s.enemies[i]? with _ | e
      · simp only [hi]
        refine ⟨by dsimp only; omega, by dsimp only; omega, h3, h4, ?_, h6, h7, h8⟩
        intro htrue
        exact absurd htrue hg2
      · simp only [hi]
        obtain ⟨hilen, -⟩ := List.getElem?_eq_some.mp hi
        split_ifs with hd
        · unfold killEnemy
          have h4len :
              ((s.enemies.set i { e with health := e.health - 34 }).eraseIdx i).length = 4 := by
            rw [List.length_eraseIdx, List.length_set, h8, if_pos (by omega)]
          dsimp only
          rw [if_pos (by rw [h4len]; omega)]
          refine ⟨by dsimp only; omega, by dsimp only; omega, h3, h4, ?_, h6, h7, ?_⟩
          · intro htrue
            exact absurd htrue hg2
          · dsimp only
            rw [List.length_append, h4len]
            rfl
        · refine ⟨by dsimp only; omega, by dsimp only; omega, h3, h4, ?_, h6, h7, ?_⟩
          · intro htrue
            exact absurd htrue hg2
          · dsimp only
            rw [List.length_set]
            exact h8

/-- The enemy shot check preserves the invariant. -/
theorem enemyShotStep_StateInv {s : GameState} (i : ℕ) (now : ℤ) (occSq : Option ℚ)
    (roll : ℚ) (hs : StateInv s) : StateInv (enemyShotStep s i now occSq roll) := by
  obtain ⟨h1, h2, h3, h4, h5, h6, h7, h8⟩ := hs
  unfold enemyShotStep
  rcases hi : s.enemies[i]? with _ | e
  · exact ⟨h1, h2, h3, h4, h5, h6, h7, h8⟩
  · simp only [hi]
    have hlen : (s.enemies.set i { e with lastShot := now }).length = 5 := by
      rw [List.length_set]
      exact h8
    split_ifs with hcond hlos hroll
    · refine ⟨h1, h2, h3, h4, h5, h6, ?_, hlen⟩
      intro hdf
      dsimp only at hdf ⊢
      rcases Bool.or_eq_false_iff.mp hdf with ⟨hdf1, hdf2⟩
      have := h7 hdf1
      rw [decide_eq_false_iff_not] at hdf2
      omega
    · exact ⟨h1, h2, h3, h4, h5, h6, h7, hlen⟩
    · exact ⟨h1, h2, h3, h4, h5, h6, h7, hlen⟩
    · exact ⟨h1, h2, h3, h4, h5, h6, h7, h8⟩

/-- Every engine event preserves the invariant. -/
theorem step_StateInv {s t : GameState} (h : Step s t) (hs : StateInv s) : StateInv t := by
  cases h with
  | fire target spawnPos => exact shoot_StateInv target spawnPos hs
  | reloadStart => exact reload_StateInv hs
  | reloadFinish hr => exact reloadDone_StateInv hr hs
  | enemyShot i now occSq roll => exact enemyShotStep_StateInv i now occSq roll hs
  | playerMove p => exact setPlayerPos_StateInv p hs
  | enemyMove i p => exact moveEnemy_StateInv i p hs

/-- The invariant holds in every reachable state. -/
theorem reachable_StateInv {s t : GameState} (h : Reachable s t) (hs : StateInv s) :
    StateInv t := by
  induction h with
  | refl => exact hs
  | tail hr hstep ih => exact step_StateInv hstep ih

/-- The match-start state satisfies the invariant. -/
theorem initState_StateInv {s : GameState} (h : InitState s) : StateInv s := by
  obtain ⟨hh, ha, hr, hir, hp, hd, hk, hl, -⟩ := h
  refine ⟨by omega, by omega, by omega, by omega, ?_, fun _ => hp, fun _ => by omega, hl⟩
  intro htrue
  rw [hir] at htrue
  exact Bool.noConfusion htrue

end InvariantHelpers

section InitWorldHelpers

/-- The concrete world initWorld is a match-start state. -/
theorem initWorld_initState : InitState initWorld := by
  refine ⟨rfl, rfl, rfl, rfl, rfl, rfl, rfl, rfl, ?_⟩
  intro e he
  simp only [initWorld, List.mem_cons, List.not_mem_nil, or_false] at he
  rcases he with h | h | h | h | h <;> subst h <;> exact ⟨rfl, rfl⟩

end InitWorldHelpers

section ClaimC1

/-- C1: from the match-start state (magazine 30, reserve 90), every
event sequence keeps magazine and reserve nonnegative with their sum
at most 120, and completing an in-flight reload moves exactly
min(30 - magazine, reserve) rounds from reserve to magazine,
conserving the sum across the reload. -/
theorem ammo_conservation (s0 s : GameState) (h0 : InitState s0) (h : Reachable s0 s) :
    (0 ≤ s.playerAmmo ∧ 0 ≤ s.playerReserveAmmo ∧
      s.playerAmmo + s.playerReserveAmmo ≤ 120) ∧
    (s.isReloading = true →
      (reloadDone s).playerAmmo =
        s.playerAmmo + min (30 - s.playerAmmo) s.playerReserveAmmo ∧
      (reloadDone s).playerReserveAmmo =
        s.playerReserveAmmo - min (30 - s.playerAmmo) s.playerReserveAmmo ∧
      (reloadDone s).playerAmmo + (reloadDone s).playerReserveAmmo =
        s.playerAmmo + s.playerReserveAmmo) := by
  obtain ⟨h1, h2, h3, h4, h5, h6, h7, h8⟩ := reachable_StateInv h (initState_StateInv h0)
  refine ⟨⟨h1, h3, by omega⟩, fun hr => ?_⟩
  have hp := h5 hr
  unfold reloadDone
  dsimp only
  exact ⟨by omega, by omega, by omega⟩

/-- C1 witness: after one shot and a reload start from the concrete
match-start world, the bounds hold and the completion moves exactly
one round back into the magazine. -/
theorem ammo_conservation_witness :
    (0 ≤ c1S2.playerAmmo ∧ 0 ≤ c1S2.playerReserveAmmo ∧
      c1S2.playerAmmo + c1S2.playerReserveAmmo ≤ 120) ∧
    ((reloadDone c1S2).playerAmmo =
        c1S2.playerAmmo + min (30 - c1S2.playerAmmo) c1S2.playerReserveAmmo ∧
      (reloadDone c1S2).playerReserveAmmo =
        c1S2.playerReserveAmmo - min (30 - c1S2.playerAmmo) c1S2.playerReserveAmmo ∧
      (reloadDone c1S2).playerAmmo + (reloadDone c1S2).playerReserveAmmo =
        c1S2.playerAmmo + c1S2.playerReserveAmmo) := by
  have hreach : Reachable initWorld c1S2 :=
    Reachable.tail (Reachable.tail (Reachable.refl initWorld)
      (Step.fire initWorld none spawnP)) (Step.reloadStart (shoot initWorld none spawnP))
  have h := ammo_conservation initWorld c1S2 initWorld_initState hreach
  exact ⟨h.1, h.2 rfl⟩

end ClaimC1

section ClaimC7

/-- Characterization of the repeated enemy-shot scenario: after n
successful hits the player health is 100 - 10n, the player has not
moved, and enemy 0 keeps its position with lastShot 2001n. -/
theorem c7State_spec (n : ℕ) :
    (c7State n).playerHealth = 100 - 10 * (n : ℤ) ∧
    (c7State n).playerPos = (⟨0, 10, 0⟩ : Vec3 ℚ) ∧
    (c7State n).enemies[0]? = some ⟨⟨30, 6, 30⟩, 100, 2001 * (n : ℤ)⟩ := by
  induction n with
  | zero =>
    refine ⟨by norm_num [c7State, initWorld], rfl, ?_⟩
    simp only [Nat.cast_zero, mul_zero]
    rfl
  | succ n ih =>
    obtain ⟨ih1, ih2, ih3⟩ := ih
    obtain ⟨hlen, -⟩ := List.getElem?_eq_some.mp ih3
    have hstep : c7State (n + 1) =
        enemyShotStep (c7State n) 0 (2001 * ((n : ℤ) + 1)) none 1 := rfl
    rw [hstep]
    unfold enemyShotStep
    simp only [ih3]
    dsimp only
    rw [if_pos ⟨by rw [ih2]; norm_num [Vec3.distSq], by omega⟩]
    rw [if_pos (show losClear none _ from trivial)]
    rw [if_pos (show (0.3 : ℚ) < 1 by norm_num)]
    refine ⟨by dsimp only; omega, by dsimp only; exact ih2, ?_⟩
    dsimp only
    rw [List.getElem?_set_self hlen]
    push_cast
    rfl

/-- The repeated enemy-shot scenario states are reachable from the
match-start world. -/
theorem c7State_reachable (n : ℕ) : Reachable initWorld (c7State n) := by
  induction n with
  | zero => exact Reachable.refl initWorld
  | succ n ih =>
    exact Reachable.tail ih (Step.enemyShot (c7State n) 0 (2001 * ((n : ℤ) + 1)) none 1)

/-- C7 (amended): in every reachable state the magazine and the
reserve are nonnegative, and the player health is positive in every
reachable state in which the death event has not fired; after a death
event the health can continue to drop below zero, since enemy damage
is applied with no floor. -/
theorem ammo_nonneg_health_amended (s0 s : GameState) (h0 : InitState s0)
    (h : Reachable s0 s) :
    0 ≤ s.playerAmmo ∧ 0 ≤ s.playerReserveAmmo ∧
    (s.deathFired = false → 0 < s.playerHealth) := by
  obtain ⟨h1, -, h3, -, -, -, h7, -⟩ := reachable_StateInv h (initState_StateInv h0)
  exact ⟨h1, h3, h7⟩

/-- C7 witness: the amended bounds at the concrete match-start world. -/
theorem ammo_nonneg_health_amended_witness :
    0 ≤ initWorld.playerAmmo ∧ 0 ≤ initWorld.playerReserveAmmo ∧
    (initWorld.deathFired = false → 0 < initWorld.playerHealth) :=
  ammo_nonneg_health_amended initWorld initWorld initWorld_initState
    (Reachable.refl initWorld)

/-- C7 counterexample: eleven consecutive successful enemy shots from
the match-start world are a reachable sequence that drives the player
health to -10 < 0, so the claim that health is never negative fails on
the code (damage keeps applying after the death event with no
floor). -/
theorem health_negative_cex :
    InitState initWorld ∧ Reachable initWorld (c7State 11) ∧
    (c7State 11).playerHealth < 0 := by
  refine ⟨initWorld_initState, c7State_reachable 11, ?_⟩
  rw [(c7State_spec 11).1]
  norm_num

end ClaimC7

section ClaimC6

/-- C6: every reachable state has exactly 5 live enemy agents, and
killing any one of them removes exactly that agent and spawns exactly
one replacement within the same call, restoring the count to 5 (so N
sequential deaths yield N replacement spawns). -/
theorem population_floor (s0 s : GameState) (h0 : InitState s0) (h : Reachable s0 s)
    (i : ℕ) (hi : i < s.enemies.length) (p : Vec3 ℚ) :
    s.enemies.length = 5 ∧
    (killEnemy s i p).enemies = s.enemies.eraseIdx i ++ [spawnEnemy p] ∧
    (killEnemy s i p).enemies.length = 5 := by
  obtain ⟨-, -, -, -, -, -, -, h8⟩ := reachable_StateInv h (initState_StateInv h0)
  have h4len : (s.enemies.eraseIdx i).length = 4 := by
    rw [List.length_eraseIdx, if_pos hi, h8]
  have hbr : (killEnemy s i p).enemies = s.enemies.eraseIdx i ++ [spawnEnemy p] := by
    unfold killEnemy
    dsimp only
    rw [if_pos (by rw [h4len]; omega)]
  refine ⟨h8, hbr, ?_⟩
  rw [hbr, List.length_append, h4len]
  rfl

/-- C6 witness: killing enemy 0 of the concrete match-start world
replaces it and keeps the count at 5. -/
theorem population_floor_witness :
    initWorld.enemies.length = 5 ∧
    (killEnemy initWorld 0 spawnP).enemies =
      initWorld.enemies.eraseIdx 0 ++ [spawnEnemy spawnP] ∧
    (killEnemy initWorld 0 spawnP).enemies.length = 5 :=
  population_floor initWorld initWorld initWorld_initState (Reachable.refl initWorld) 0
    (by decide) spawnP

end ClaimC6

section ShootHitHelper

/-- Effect of a fired shot whose view ray selects the enemy at index
i: the agent takes 34 damage and survives exactly when its new health
stays positive; otherwise it is removed, the kill event fires, and one
replacement spawns when the remaining count is below 5. -/
theorem shoot_hit_spec (s : GameState) (i : ℕ) (e : Enemy) (p : Vec3 ℚ)
    (he : s.enemies[i]? = some e) (ha : 0 < s.playerAmmo) (hr : s.isReloading = false) :
    (0 < e.health - 34 →
      (shoot s (some i) p).enemies[i]? = some { e with health := e.health - 34 } ∧
      (shoot s (some i) p).killCount = s.killCount) ∧
    (e.health - 34 ≤ 0 →
      (shoot s (some i) p).enemies = s.enemies.eraseIdx i ++
        (if (s.enemies.eraseIdx i).length < 5 then [spawnEnemy p] else []) ∧
      (shoot s (some i) p).killCount = s.killCount + 1) := by
  have hg : ¬(s.playerAmmo ≤ 0 ∨ s.isReloading = true) := by
    rw [hr]
    simp
    omega
  obtain ⟨hilen, -⟩ := List.getElem?_eq_some.mp he
  unfold shoot
  rw [if_neg hg]
  dsimp only
  simp only [he]
  constructor
  · intro hh
    rw [if_neg (by omega)]
    constructor
    · dsimp only
      rw [List.getElem?_set_self hilen]
    · rfl
  · intro hh
    rw [if_pos (by omega)]
    unfold killEnemy
    dsimp only
    rw [eraseIdx_set]
    constructor
    · split_ifs with hlt
      · rfl
      · simp
    · rfl

end ShootHitHelper

section ClaimC3

/-- C3: a hit applies exactly 34 damage, with the agent removed (and a
kill signalled) exactly when the resulting health is ≤ 0; and in the
scenario with magazine 5 and one fresh 100-health agent, three hits
drive its health to 66, then 32, then -2 with removal and a single
kill event on the third hit, and two further trigger pulls empty the
magazine with no further kill. -/
theorem damage_and_kill_scenario (s : GameState) (i : ℕ) (e : Enemy) (p : Vec3 ℚ)
    (he : s.enemies[i]? = some e) (ha : 0 < s.playerAmmo) (hr : s.isReloading = false) :
    ((0 < e.health - 34 →
        (shoot s (some i) p).enemies[i]? = some { e with health := e.health - 34 } ∧
        (shoot s (some i) p).killCount = s.killCount) ∧
     (e.health - 34 ≤ 0 →
        (shoot s (some i) p).enemies = s.enemies.eraseIdx i ++
          (if (s.enemies.eraseIdx i).length < 5 then [spawnEnemy p] else []) ∧
        (shoot s (some i) p).killCount = s.killCount + 1)) ∧
    ((c3S1.enemies[0]? = some ⟨⟨30, 6, 30⟩, 66, 0⟩ ∧ c3S1.playerAmmo = 4 ∧
        c3S1.killCount = 0) ∧
     (c3S2.enemies[0]? = some ⟨⟨30, 6, 30⟩, 32, 0⟩ ∧ c3S2.playerAmmo = 3 ∧
        c3S2.killCount = 0) ∧
     (c3S3.enemies = [spawnEnemy spawnP] ∧ c3S3.playerAmmo = 2 ∧ c3S3.killCount = 1) ∧
     (c3S4.playerAmmo = 1 ∧ c3S4.killCount = 1) ∧
     (c3S5.playerAmmo = 0 ∧ c3S5.killCount = 1)) :=
  ⟨shoot_hit_spec s i e p he ha hr,
   ⟨rfl, rfl, rfl⟩, ⟨rfl, rfl, rfl⟩, ⟨rfl, rfl, rfl⟩, ⟨rfl, rfl⟩, ⟨rfl, rfl⟩⟩

/-- C3 witness: the first scenario hit at the concrete scenario world
takes enemy health from 100 to 66 with no kill. -/
theorem damage_and_kill_scenario_witness :
    (shoot c3Init (some 0) spawnP).enemies[0]? = some ⟨⟨30, 6, 30⟩, 66, 0⟩ ∧
    (shoot c3Init (some 0) spawnP).killCount = c3Init.killCount := by
  have h := damage_and_kill_scenario c3Init 0 ⟨⟨30, 6, 30⟩, 100, 0⟩ spawnP rfl
    (by decide) rfl
  exact h.1.1 (by decide)

end ClaimC3

section ClaimC9

/-- C9: the fire raycast consults only the live enemy meshes and never
the obstacle set: shoot commutes with any replacement of the walls (so
no obstacle configuration can occlude a player shot), and a fired shot
whose view ray selects the enemy at index i damages that agent, with a
kill exactly when its health drops to ≤ 0. -/
theorem shoot_ignores_obstacles (s : GameState) (target : Option ℕ) (spawnPos : Vec3 ℚ)
    (W : List (Box3 ℚ)) (i : ℕ) (e : Enemy)
    (he : s.enemies[i]? = some e) (ha : 0 < s.playerAmmo) (hr : s.isReloading = false) :
    shoot { s with walls := W } target spawnPos =
      { shoot s target spawnPos with walls := W } ∧
    (0 < e.health - 34 →
      (shoot s (some i) spawnPos).enemies[i]? = some { e with health := e.health - 34 }) ∧
    (e.health - 34 ≤ 0 →
      (shoot s (some i) spawnPos).killCount = s.killCount + 1) := by
  have hspec := shoot_hit_spec s i e spawnPos he ha hr
  refine ⟨?_, fun hh => (hspec.1 hh).1, fun hh => (hspec.2 hh).2⟩
  obtain ⟨pp, ph, pa, pra, ir, pnd, df, kc, es, ws⟩ := s
  unfold shoot
  split_ifs with hg
  · rfl
  · dsimp only
    cases target with
    | none => rfl
    | some j =>
      rcases hj : es[j]? with _ | ej
      · simp only [hj]
      · simp only [hj]
        split_ifs with hd
        · unfold killEnemy
          dsimp only
        · rfl

/-- C9 witness: at the concrete match-start world, emptying the
obstacle set does not change the outcome of a shot, and a hit on enemy
0 damages it. -/
theorem shoot_ignores_obstacles_witness :
    shoot { initWorld with walls := [] } (some 0) spawnP =
      { shoot initWorld (some 0) spawnP with walls := [] } ∧
    (shoot initWorld (some 0) spawnP).enemies[0]? = some ⟨⟨30, 6, 30⟩, 66, 0⟩ := by
  have h := shoot_ignores_obstacles initWorld (some 0) spawnP [] 0 ⟨⟨30, 6, 30⟩, 100, 0⟩
    rfl (by decide) rfl
  exact ⟨h.1, h.2.1 (by decide)⟩

end ClaimC9

section ClaimC2

/-- Evaluation of one integration step at rest (no keys held, zero
velocity, axes of the identity orientation, dt = 1/100): gravity alone
lowers the position by 0.0098. -/
theorem rest_integration (p : Vec3 ℝ) :
    integratePosition p axisX0 axisZ0
      (integrateVelocity ⟨0, 0, 0⟩ restInput (1 / 100)) (1 / 100) =
      ⟨p.x, p.y - 49 / 5000, p.z⟩ := by
  unfold integrateVelocity integratePosition normalize3 restInput axisX0 axisZ0
    Vec3.add Vec3.scale
  norm_num
  ring

/-- C2 (amended): whenever the integrated tick position would overlap
an obstacle box, updatePlayer rolls the position back to its
pre-integration value and zeroes both horizontal velocity components,
provided the pre-integration position is a valid post-tick position
(height at least 10, horizontal coordinates within ±95); otherwise the
later ground and arena clamps can move the rolled-back position.  The
final conjunct shows every position updatePlayer produces satisfies
that side condition, so the rollback claim holds along every tick
sequence. -/
theorem collision_rollback_amended (walls : List (Box3 ℝ)) (s : PlayerState)
    (inp : MoveInput) (axisX axisZ : Vec3 ℝ) (dt : ℝ)
    (hy : 10 ≤ s.pos.y) (hx1 : -95 ≤ s.pos.x) (hx2 : s.pos.x ≤ 95)
    (hz1 : -95 ≤ s.pos.z) (hz2 : s.pos.z ≤ 95)
    (hcol : Collides walls
      (integratePosition s.pos axisX axisZ (integrateVelocity s.vel inp dt) dt)) :
    (updatePlayer walls s inp axisX axisZ dt).pos = s.pos ∧
    (updatePlayer walls s inp axisX axisZ dt).vel.x = 0 ∧
    (updatePlayer walls s inp axisX axisZ dt).vel.z = 0 ∧
    (∀ t : PlayerState, 10 ≤ (updatePlayer walls t inp axisX axisZ dt).pos.y ∧
      -95 ≤ (updatePlayer walls t inp axisX axisZ dt).pos.x ∧
      (updatePlayer walls t inp axisX axisZ dt).pos.x ≤ 95 ∧
      -95 ≤ (updatePlayer walls t inp axisX axisZ dt).pos.z ∧
      (updatePlayer walls t inp axisX axisZ dt).pos.z ≤ 95) := by
  have hpost : ∀ t : PlayerState, 10 ≤ (updatePlayer walls t inp axisX axisZ dt).pos.y ∧
      -95 ≤ (updatePlayer walls t inp axisX axisZ dt).pos.x ∧
      (updatePlayer walls t inp axisX axisZ dt).pos.x ≤ 95 ∧
      -95 ≤ (updatePlayer walls t inp axisX axisZ dt).pos.z ∧
      (updatePlayer walls t inp axisX axisZ dt).pos.z ≤ 95 := by
    intro t
    unfold updatePlayer
    dsimp only
    refine ⟨?_, le_max_left _ _, max_le (by norm_num) (min_le_left _ _),
      le_max_left _ _, max_le (by norm_num) (min_le_left _ _)⟩
    split_ifs with h1 h2 h3
    · norm_num
    · exact not_lt.mp h2
    · norm_num
    · exact not_lt.mp h3
  have hmain : updatePlayer walls s inp axisX axisZ dt =
      ⟨⟨max (-95) (min 95 s.pos.x), s.pos.y, max (-95) (min 95 s.pos.z)⟩,
       ⟨0, (integrateVelocity s.vel inp dt).y, 0⟩, s.canJump⟩ := by
    unfold updatePlayer
    dsimp only
    simp only [if_pos hcol, if_neg (not_lt.mpr hy)]
  refine ⟨?_, ?_, ?_, hpost⟩
  · rw [hmain]
    rw [min_eq_right hx2, max_eq_right hx1, min_eq_right hz2, max_eq_right hz1]
  · rw [hmain]
  · rw [hmain]

/-- C2 witness: a rest state at ground height inside the footprint of
the first cover box; gravity makes the integrated box overlap the
cover box and the tick rolls everything back. -/
theorem collision_rollback_amended_witness :
    Collides arenaWalls
      (integratePosition c2StateW.pos axisX0 axisZ0
        (integrateVelocity c2StateW.vel restInput (1 / 100)) (1 / 100)) ∧
    (updatePlayer arenaWalls c2StateW restInput axisX0 axisZ0 (1 / 100)).pos =
      c2StateW.pos ∧
    (updatePlayer arenaWalls c2StateW restInput axisX0 axisZ0 (1 / 100)).vel.x = 0 ∧
    (updatePlayer arenaWalls c2StateW restInput axisX0 axisZ0 (1 / 100)).vel.z = 0 := by
  have hcol : Collides arenaWalls
      (integratePosition c2StateW.pos axisX0 axisZ0
        (integrateVelocity c2StateW.vel restInput (1 / 100)) (1 / 100)) := by
    show Collides arenaWalls
      (integratePosition ⟨20, 10, 30⟩ axisX0 axisZ0
        (integrateVelocity ⟨0, 0, 0⟩ restInput (1 / 100)) (1 / 100))
    rw [rest_integration]
    refine ⟨⟨⟨20, 5, 30⟩, ⟨8, 10, 8⟩⟩, ?_, ?_⟩
    · unfold arenaWalls
      simp
    · unfold intersectsBox playerBoxAt Box3.lo Box3.hi
      norm_num
  have h := collision_rollback_amended arenaWalls c2StateW restInput axisX0 axisZ0 (1 / 100)
    (by norm_num [c2StateW]) (by norm_num [c2StateW]) (by norm_num [c2StateW])
    (by norm_num [c2StateW]) (by norm_num [c2StateW]) hcol
  exact ⟨hcol, h.1, h.2.1, h.2.2.1⟩

/-- C2 counterexample: from the (not post-tick-valid) position
(20, 5, 30) with zero velocity, the integrated box overlaps the first
cover box, yet the tick does not return to that position: the ground
clamp that runs after the rollback raises the height from 5 to 10, so
the unrestricted claim is false. -/
theorem collision_rollback_cex :
    Collides arenaWalls
      (integratePosition c2StateC.pos axisX0 axisZ0
        (integrateVelocity c2StateC.vel restInput (1 / 100)) (1 / 100)) ∧
    (updatePlayer arenaWalls c2StateC restInput axisX0 axisZ0 (1 / 100)).pos ≠
      c2StateC.pos := by
  have hcol : Collides arenaWalls
      (integratePosition c2StateC.pos axisX0 axisZ0
        (integrateVelocity c2StateC.vel restInput (1 / 100)) (1 / 100)) := by
    show Collides arenaWalls
      (integratePosition ⟨20, 5, 30⟩ axisX0 axisZ0
        (integrateVelocity ⟨0, 0, 0⟩ restInput (1 / 100)) (1 / 100))
    rw [rest_integration]
    refine ⟨⟨⟨20, 5, 30⟩, ⟨8, 10, 8⟩⟩, ?_, ?_⟩
    · unfold arenaWalls
      simp
    · unfold intersectsBox playerBoxAt Box3.lo Box3.hi
      norm_num
  refine ⟨hcol, ?_⟩
  unfold updatePlayer
  dsimp only
  simp only [if_pos hcol, if_pos (show c2StateC.pos.y < 10 by norm_num [c2StateC])]
  intro heq
  have h10 : (10 : ℝ) = c2StateC.pos.y := congrArg Vec3.y heq
  norm_num [c2StateC] at h10

end ClaimC2
